import Mathlib

/-!
# Verification of the Git-synchronized mutation pipeline

Shallow embedding of the core of `blog-api-server`: the file lock
(`file_lock.py`), the repository synchronizer and the commit-and-push
pipeline (`git_handler.py`), together with the nested-lock scenario of the
content store (`blog_manager.py`).

External effects (the `git` binary, the OS advisory-lock facility, the
clock) are abstracted as oracles: a `GitEnv` records the exit status and
output streams of each git command an invocation can run, time advances in
milliseconds only through the 100 ms polling sleep of the lock loop, and
the kernel's `flock` table is a `LockWorld` value.
-/

namespace BlogApi

/-! ## Cross-process lock (`file_lock.py`)

`FileLock.acquire` opens a fresh descriptor with `os.open` on every call
and retries a non-blocking `fcntl.flock(fd, LOCK_EX | LOCK_NB)` every
100 ms until the lock is obtained or `timeout` elapses.  `flock` locks are
attached to the open file description, so a lock held through one
descriptor denies the attempt of any other descriptor, including a second
descriptor opened by the very same process. -/

/-- Outcome of one `FileLock.acquire` call: the returned boolean, the
cumulative wait (ms) when the call returned, and whether the
opened-but-unlocked descriptor was closed again (the `os.close(fd)` on the
timeout path of `file_lock.py` lines 73-76). -/
structure AcquireOutcome where
  ok : Bool
  elapsedMs : Nat
  fdClosed : Bool
  deriving Repr, DecidableEq

/-- The retry loop of `FileLock.acquire` (`file_lock.py` lines 63-77).
`avail t` tells whether the non-blocking `flock` attempt made after a
cumulative wait of `t` milliseconds succeeds; time advances only through
the `time.sleep(0.1)` between attempts.  The loop returns `true` as soon
as an attempt succeeds, and returns `false` (closing the descriptor)
once the cumulative wait has reached the timeout. -/
def acquireFrom (avail : Nat → Bool) (elapsed timeoutMs : Nat) : AcquireOutcome :=
  if avail elapsed then
    { ok := true, elapsedMs := elapsed, fdClosed := false }
  else if timeoutMs ≤ elapsed then
    { ok := false, elapsedMs := elapsed, fdClosed := true }
  else
    acquireFrom avail (elapsed + 100) timeoutMs
termination_by timeoutMs - elapsed
decreasing_by omega

/-- `FileLock.acquire(timeout)` viewed from the start of the call. -/
def FileLock.acquireTimed (avail : Nat → Bool) (timeoutMs : Nat) : AcquireOutcome :=
  acquireFrom avail 0 timeoutMs

/-- The kernel-side state of the lock file: which open descriptor (if any)
currently holds the exclusive `flock`, and the id the next `os.open` will
return.  Descriptors are identified by a counter. -/
structure LockWorld where
  holder : Option Nat
  nextFd : Nat
  deriving Repr, DecidableEq

/-- The in-process state of a `FileLock` object: `_fd` and `_acquired`
(`file_lock.py` lines 41-43). -/
structure FLState where
  fd : Option Nat
  acquired : Bool
  deriving Repr, DecidableEq

/-- A non-blocking `flock(fd, LOCK_EX | LOCK_NB)` on a freshly opened
descriptor succeeds exactly when no descriptor currently holds the lock —
also when the holding descriptor belongs to the calling process itself,
since distinct `os.open` calls create distinct open file descriptions. -/
def flockAvailable (w : LockWorld) : Bool :=
  w.holder.isNone

/-- `FileLock.acquire` (`file_lock.py` lines 45-77) run to completion in a
context where no other actor touches the lock while this call waits (in
particular, in a single-threaded nested call the current holder cannot
release meanwhile), so every polling attempt sees the availability that
held at the start of the call and the loop's outcome is decided by the
initial holder: success at once when the file is free, timeout when it is
held (`acquireSt_ok_agrees` ties this flag to the timed loop
`FileLock.acquireTimed`).  On success the fresh descriptor becomes the
holder and is stored in `_fd`; on timeout the descriptor is closed and
the states are unchanged. -/
def FileLock.acquireSt (w : LockWorld) (s : FLState) :
    Bool × LockWorld × FLState :=
  match w.holder with
  | none =>
      (true, { holder := some w.nextFd, nextFd := w.nextFd + 1 },
        { fd := some w.nextFd, acquired := true })
  | some _ => (false, { w with nextFd := w.nextFd + 1 }, s)

/-- `FileLock.release` (`file_lock.py` lines 83-95): if `_fd` is held,
unlock it, close it and clear the object state; otherwise a no-op. -/
def FileLock.releaseSt (w : LockWorld) (s : FLState) : LockWorld × FLState :=
  match s.fd with
  | none => (w, s)
  | some fd =>
      ({ w with holder := if w.holder = some fd then none else w.holder },
        { fd := none, acquired := false })

/-- Outcome of running a scoped-acquisition helper around a critical
section: the value propagated to the caller (`Except.error` models a
raised exception), the final kernel and object states, and whether the
critical-section body was ever entered. -/
structure ScopedOutcome (α : Type) where
  result : Except String α
  world : LockWorld
  lockSt : FLState
  bodyRan : Bool

/-- The `git_lock` context manager (`file_lock.py` lines 140-156): acquire
the global lock with the given timeout; on success run the body and
release in a `finally` (so release happens on normal return and on
exception alike, the body's outcome being propagated unchanged); on
failure raise `TimeoutError("Could not acquire git lock")` without
running the body. -/
def git_lock_run (w : LockWorld) (s : FLState)
    (body : Except String α) : ScopedOutcome α :=
  let (ok, w1, s1) := FileLock.acquireSt w s
  if ok then
    let (w2, s2) := FileLock.releaseSt w1 s1
    { result := body, world := w2, lockSt := s2, bodyRan := true }
  else
    { result := Except.error "Could not acquire git lock",
      world := w1, lockSt := s1, bodyRan := false }

/-- `FileLock.acquire_context` (`file_lock.py` lines 107-123): identical
control flow to `git_lock`, raising
`TimeoutError("Could not acquire lock: ...")` when acquisition fails. -/
def FileLock.acquire_context_run (w : LockWorld) (s : FLState)
    (body : Except String α) : ScopedOutcome α :=
  let (ok, w1, s1) := FileLock.acquireSt w s
  if ok then
    let (w2, s2) := FileLock.releaseSt w1 s1
    { result := body, world := w2, lockSt := s2, bodyRan := true }
  else
    { result := Except.error "Could not acquire lock", world := w1, lockSt := s1,
      bodyRan := false }

/-! ## Git command runner oracle and synchronizer (`git_handler.py`) -/

/-- The `(returncode, stdout, stderr)` triple returned by
`GitHandler._run_git`. -/
structure RunResult where
  code : Int
  out : String
  err : String
  deriving Repr, DecidableEq

/-- Oracle for one `commit_and_push` / `get_status` invocation: the result
each git command would return if run.  Each command is run at most once
per invocation, so fixed results are faithful. -/
structure GitEnv where
  status : RunResult
  add : String → RunResult
  addDefault : RunResult
  diffCached : RunResult
  commit : RunResult
  push : RunResult

/-- `GitHandler.pull` (`git_handler.py` lines 145-173): returns `True`
when `git pull origin main` exits 0 and `False` otherwise.  Although the
docstring promises `None` on error, no path of the body returns `None`:
`_run_git` converts every exception into a nonzero sentinel code, which
lands in the `return False` branch. -/
def GitHandler.pull (pullCode : Int) : Option Bool :=
  if pullCode = 0 then some true else some false

/-- `GitHandler.ensure_repo` (`git_handler.py` lines 90-100): if the local
path exists, evaluate `self.pull() is not None`; otherwise `self.clone()`.
`cloneOk` is the boolean `clone` returns. -/
def GitHandler.ensure_repo (pathExists : Bool) (pullCode : Int) (cloneOk : Bool) : Bool :=
  if pathExists then (GitHandler.pull pullCode).isSome else cloneOk

/-- Python's default whitespace set for `str.strip()`:
space, tab, newline, carriage return, vertical tab, form feed. -/
def pyIsSpace (c : Char) : Bool :=
  c = ' ' || c = '\t' || c = '\n' || c = '\r' || c = '\x0b' || c = '\x0c'

/-- `str.strip()` on the character list: drop whitespace from both ends. -/
def pyStripList (l : List Char) : List Char :=
  ((l.dropWhile pyIsSpace).reverse.dropWhile pyIsSpace).reverse

/-- Python `str.strip()`. -/
def pyStrip (s : String) : String :=
  ⟨pyStripList s.data⟩

/-- Python `str.split("\n")` on the character list: cutting at every
newline yields one part more than there are newlines, so the result is
never empty. -/
def splitNl : List Char → List (List Char)
  | [] => [[]]
  | c :: cs =>
      if c = '\n' then [] :: splitNl cs
      else
        match splitNl cs with
        | [] => [[c]]
        | l :: ls => (c :: l) :: ls

/-- Python `str.split("\n")`. -/
def pySplitNl (s : String) : List String :=
  (splitNl s.data).map fun l => ⟨l⟩

/-- The dictionary returned by `GitHandler.get_status`: Python dict keys
become `Option` fields, `none` meaning the key is absent. -/
structure GitStatus where
  error : Option String
  clean : Bool
  changes : Option (List String)
  change_count : Option Nat
  deriving Repr, DecidableEq

/-- `GitHandler.get_status` (`git_handler.py` lines 175-197): on a failed
`git status --porcelain` return `{"error": stderr, "clean": False}`;
otherwise split the stripped stdout into lines (empty list when blank)
and return `{"clean": len == 0, "changes": lines, "change_count": len}`. -/
def GitHandler.get_status (status : RunResult) : GitStatus :=
  if status.code ≠ 0 then
    { error := some status.err, clean := false, changes := none, change_count := none }
  else
    let stripped := pyStrip status.out
    let changes := if stripped = "" then [] else pySplitNl stripped
    { error := none, clean := changes.isEmpty, changes := some changes,
      change_count := some changes.length }

/-! ## Commit-and-push pipeline (`git_handler.py` lines 236-352) -/

/-- The git commands `commit_and_push` can issue, in the order issued;
the pipeline has no reset/revert/rollback command at all. -/
inductive GitCmd
  | statusCmd
  | addFile (f : String)
  | addDefault
  | diffCached
  | commitCmd
  | pushCmd
  deriving Repr, DecidableEq

/-- The dictionary returned by `commit_and_push`; `none` marks an absent
key. -/
structure CommitPushResult where
  success : Bool
  message : Option String := none
  error : Option String := none
  committed : Option Bool := none
  commit_message : Option String := none
  changes : Option (List String) := none
  deriving Repr, DecidableEq

/-- The per-file staging loop (`git_handler.py` lines 283-288): run
`git add f` for each file in order, returning the error dict text of the
first failure (which aborts the loop) and the trace of add commands
actually run. -/
def stageFiles (env : GitEnv) : List String → Option String × List GitCmd
  | [] => (none, [])
  | f :: rest =>
      let r := env.add f
      if r.code ≠ 0 then
        (some ("Failed to add " ++ f ++ ": " ++ r.err), [GitCmd.addFile f])
      else
        let (e, tr) := stageFiles env rest
        (e, GitCmd.addFile f :: tr)

/-- Step 2 of `commit_and_push` (`git_handler.py` lines 280-296): Python's
`if files:` is truthiness, so both `None` and the empty list take the
default branch `git add content/ static/`. -/
def stageStep (env : GitEnv) (files : Option (List String)) : Option String × List GitCmd :=
  match files with
  | some (f :: rest) => stageFiles env (f :: rest)
  | _ =>
      let r := env.addDefault
      (if r.code ≠ 0 then some ("Failed to add files: " ++ r.err) else none,
        [GitCmd.addDefault])

/-- The body of `GitHandler.commit_and_push` (`git_handler.py` lines
267-352), i.e. the pipeline run inside the `with git_lock():` block (the
lock wrapper itself is `git_lock_run`).  `timestamp` stands for
`datetime.now().strftime(...)`.  Returns the result dict (`Except.error`
models an uncaught Python exception) together with the trace of git
commands issued.  The `KeyError` branch reflects the log call at line 275,
which reads `status["change_count"]` and `status["changes"]` eagerly: on a
failed status command those keys are absent while `status["clean"]` is
`False`, so the access raises. -/
def commit_and_push (env : GitEnv) (message : String) (files : Option (List String))
    (timestamp : String) : Except String CommitPushResult × List GitCmd :=
  let status := GitHandler.get_status env.status
  if status.clean then
    (Except.ok { success := true, message := some "No changes to commit" },
      [GitCmd.statusCmd])
  else
    match status.change_count, status.changes with
    | some _, some changeList =>
        let (stageErr, stageTr) := stageStep env files
        match stageErr with
        | some e =>
            (Except.ok { success := false, error := some e },
              GitCmd.statusCmd :: stageTr)
        | none =>
            let tr := GitCmd.statusCmd :: stageTr ++ [GitCmd.diffCached]
            if env.diffCached.code = 0 then
              (Except.ok
                { success := true,
                  message := some "No changes to commit after staging" }, tr)
            else
              let full_message :=
                message ++ "\n\nCommitted by Blog API at " ++ timestamp
              let trc := tr ++ [GitCmd.commitCmd]
              if env.commit.code ≠ 0 then
                (Except.ok
                  { success := false,
                    error := some ("Commit failed: " ++ env.commit.err) }, trc)
              else
                let trp := trc ++ [GitCmd.pushCmd]
                if env.push.code ≠ 0 then
                  (Except.ok
                    { success := false,
                      error := some ("Push failed: " ++ env.push.err),
                      committed := some true,
                      commit_message := some full_message }, trp)
                else
                  (Except.ok
                    { success := true,
                      message := some "Successfully committed and pushed",
                      commit_message := some full_message,
                      changes := some changeList }, trp)
    | _, _ => (Except.error "KeyError: change_count", [GitCmd.statusCmd])

/-- The locking skeleton of `BlogManager.create_post` with `auto_push`
(`blog_manager.py` lines 153-227): the outer `with git_lock():` acquires
the global lock (default timeout 60 s = 60000 ms), and
`GitHandler.commit_and_push` (`git_handler.py` lines 263-265) then enters
its own `with git_lock():` on the same global `FileLock` while the outer
one is still held.  Returns the outer acquisition flag and the outcome of
the inner scoped acquisition around the pipeline body. -/
def createPostAutoPushLock (body : Except String CommitPushResult) :
    Bool × ScopedOutcome CommitPushResult :=
  let w0 : LockWorld := { holder := none, nextFd := 0 }
  let s0 : FLState := { fd := none, acquired := false }
  let (ok1, w1, s1) := FileLock.acquireSt w0 s0
  (ok1, git_lock_run w1 s1 body)

/-! ## Lemmas about the acquisition loop -/

lemma acquireFrom_of_avail (avail : Nat → Bool) (e T : Nat) (h : avail e = true) :
    acquireFrom avail e T = { ok := true, elapsedMs := e, fdClosed := false } := by
  rw [acquireFrom]
  simp [h]

lemma acquireFrom_denied_aux (avail : Nat → Bool) (h : ∀ t, avail t = false) :
    ∀ d e T : Nat, T ≤ e + d → e < T + 100 →
      (acquireFrom avail e T).ok = false ∧
      (acquireFrom avail e T).fdClosed = true ∧
      T ≤ (acquireFrom avail e T).elapsedMs ∧
      (acquireFrom avail e T).elapsedMs < T + 100 := by
  intro d
  induction d with
  | zero =>
      intro e T h1 h2
      rw [acquireFrom]
      have hle : T ≤ e := by omega
      simp [h, hle]
      omega
  | succ d ih =>
      intro e T h1 h2
      by_cases hle : T ≤ e
      · rw [acquireFrom]
        simp [h, hle]
        omega
      · rw [acquireFrom]
        simp [h, hle]
        exact ih (e + 100) T (by omega) (by omega)

/-- The state-machine `acquireSt` returns the same boolean as the timed
polling loop of `FileLock.acquire` run under the constant availability
the waiting call observes, for every timeout: when the file is free the
first non-blocking attempt succeeds, when it is held every attempt is
denied and the loop times out. -/
lemma acquireSt_ok_agrees (w : LockWorld) (s : FLState) (T : Nat) :
    (FileLock.acquireSt w s).1 =
      (FileLock.acquireTimed (fun _ => flockAvailable w) T).ok := by
  cases hw : w.holder with
  | none =>
      have havail : flockAvailable w = true := by simp [flockAvailable, hw]
      rw [FileLock.acquireTimed, acquireFrom_of_avail _ _ _ havail]
      simp [FileLock.acquireSt, hw]
  | some v =>
      have havail : ∀ t : Nat, (fun _ : Nat => flockAvailable w) t = false := by
        intro t
        simp [flockAvailable, hw]
      have hdenied := acquireFrom_denied_aux _ havail T 0 T (by omega) (by omega)
      rw [FileLock.acquireTimed, hdenied.1]
      simp [FileLock.acquireSt, hw]

/-! ## Claim theorems: lock -/

/-- C9: a call `acquire(timeout=T)` made while the lock is continuously
held by another holder (every non-blocking `flock` attempt is denied)
terminates, returns `false`, closes the opened-but-unlocked descriptor,
and does so once the cumulative wait reaches `T` and before it reaches
`T` plus one 100 ms poll interval. -/
theorem C9_acquire_timeout_bound (avail : Nat → Bool) (T : Nat)
    (hheld : ∀ t, avail t = false) :
    (FileLock.acquireTimed avail T).ok = false ∧
    (FileLock.acquireTimed avail T).fdClosed = true ∧
    T ≤ (FileLock.acquireTimed avail T).elapsedMs ∧
    (FileLock.acquireTimed avail T).elapsedMs < T + 100 := by
  have h := acquireFrom_denied_aux avail hheld T 0 T (by omega) (by omega)
  rw [FileLock.acquireTimed]
  exact h

theorem C9_acquire_timeout_bound_witness :
    (FileLock.acquireTimed (fun _ => false) 250).ok = false ∧
    (FileLock.acquireTimed (fun _ => false) 250).fdClosed = true ∧
    250 ≤ (FileLock.acquireTimed (fun _ => false) 250).elapsedMs ∧
    (FileLock.acquireTimed (fun _ => false) 250).elapsedMs < 250 + 100 :=
  C9_acquire_timeout_bound (fun _ => false) 250 (fun _ => rfl)

/-- C8: the scoped-acquisition helpers `git_lock` and
`FileLock.acquire_context` release the lock on every exit path of the
critical section — the propagated outcome is exactly the body's, normal
or exceptional, and afterwards the lock is no longer held (an immediate
re-acquisition succeeds) — and when acquisition fails they raise a
distinct `TimeoutError` without ever entering the critical section. -/
theorem C8_scoped_release {α : Type} (w : LockWorld) (s : FLState)
    (body : Except String α) :
    (w.holder = none →
      (git_lock_run w s body).bodyRan = true ∧
      (git_lock_run w s body).result = body ∧
      (git_lock_run w s body).world.holder = none ∧
      (git_lock_run w s body).lockSt.fd = none ∧
      (FileLock.acquireSt (git_lock_run w s body).world
        (git_lock_run w s body).lockSt).1 = true ∧
      (FileLock.acquire_context_run w s body).bodyRan = true ∧
      (FileLock.acquire_context_run w s body).result = body ∧
      (FileLock.acquire_context_run w s body).world.holder = none ∧
      (FileLock.acquire_context_run w s body).lockSt.fd = none) ∧
    (w.holder ≠ none →
      (git_lock_run w s body).bodyRan = false ∧
      (git_lock_run w s body).result = Except.error "Could not acquire git lock" ∧
      (FileLock.acquire_context_run w s body).bodyRan = false ∧
      (FileLock.acquire_context_run w s body).result =
        Except.error "Could not acquire lock") := by
  constructor
  · intro h
    simp [git_lock_run, FileLock.acquire_context_run, FileLock.acquireSt, h,
      FileLock.releaseSt]
  · intro h
    cases hw : w.holder with
    | none => exact absurd hw h
    | some v =>
        simp [git_lock_run, FileLock.acquire_context_run, FileLock.acquireSt, hw]

theorem C8_scoped_release_witness :
    (git_lock_run { holder := none, nextFd := 0 } { fd := none, acquired := false }
        (Except.error "boom" : Except String Nat)).bodyRan = true ∧
    (git_lock_run { holder := none, nextFd := 0 } { fd := none, acquired := false }
        (Except.error "boom" : Except String Nat)).result = Except.error "boom" ∧
    (git_lock_run { holder := none, nextFd := 0 } { fd := none, acquired := false }
        (Except.error "boom" : Except String Nat)).world.holder = none := by
  have h := (C8_scoped_release (α := Nat) { holder := none, nextFd := 0 }
    { fd := none, acquired := false } (Except.error "boom")).1 rfl
  exact ⟨h.1, h.2.1, h.2.2.1⟩

/-- C1: in the create/update/delete auto-push path the Content Store
already holds the global git lock when `commit_and_push` runs its own
`with git_lock():`.  Because `FileLock.acquire` opens a fresh descriptor
and `flock` denies it while another descriptor — even of the same
process — holds the lock, and the outer holder cannot release while the
same thread waits, the inner acquisition exhausts its 60 s budget: the
'lock not acquired' `TimeoutError` branch IS reached, the pipeline body
never runs, and the claimed reachable completion is refuted. -/
theorem C1_nested_lock_times_out :
    (createPostAutoPushLock (Except.ok { success := true })).1 = true ∧
    (createPostAutoPushLock (Except.ok { success := true })).2.bodyRan = false ∧
    (createPostAutoPushLock (Except.ok { success := true })).2.result =
      Except.error "Could not acquire git lock" := by
  exact ⟨rfl, rfl, rfl⟩

/-! ## Lemmas about status parsing and staging -/

/-- Splitting at newlines always yields at least one part. -/
lemma splitNl_ne_nil (l : List Char) : splitNl l ≠ [] := by
  cases l with
  | nil => simp [splitNl]
  | cons c cs =>
      rw [splitNl]
      split
      · simp
      · cases h : splitNl cs <;> simp

lemma pySplitNl_ne_nil (s : String) : pySplitNl s ≠ [] := by
  simp [pySplitNl, splitNl_ne_nil]

/-- `get_status` after a successful `git status --porcelain` whose
stripped output is nonempty: the error key is absent, the tree is
reported dirty, and `changes` holds the split lines. -/
lemma get_status_dirty (st : RunResult) (h0 : st.code = 0)
    (h1 : pyStrip st.out ≠ "") :
    GitHandler.get_status st =
      { error := none, clean := false,
        changes := some (pySplitNl (pyStrip st.out)),
        change_count := some (pySplitNl (pyStrip st.out)).length } := by
  simp only [GitHandler.get_status, h0]
  simp [h1, List.isEmpty_iff, pySplitNl_ne_nil]

/-- When every `git add` succeeds, the per-file staging loop stages
exactly the supplied paths, in order. -/
lemma stageFiles_ok (env : GitEnv) :
    ∀ fs : List String, (stageFiles env fs).1 = none →
      (stageFiles env fs).2 = fs.map GitCmd.addFile := by
  intro fs
  induction fs with
  | nil => intro _; simp [stageFiles]
  | cons f rest ih =>
      intro h
      rw [stageFiles] at h ⊢
      by_cases hc : (env.add f).code ≠ 0
      · simp [hc] at h
      · simp only [hc, if_false, ite_false, reduceIte] at h ⊢
        simp [ih h]

/-- A failure of the per-file staging loop is the failure of some
supplied path's `git add`, reported with the tool's raw stderr. -/
lemma stageFiles_err (env : GitEnv) :
    ∀ (fs : List String) (e : String), (stageFiles env fs).1 = some e →
      ∃ f ∈ fs, (env.add f).code ≠ 0 ∧
        e = "Failed to add " ++ f ++ ": " ++ (env.add f).err := by
  intro fs
  induction fs with
  | nil => intro e h; simp [stageFiles] at h
  | cons f rest ih =>
      intro e h
      rw [stageFiles] at h
      by_cases hc : (env.add f).code ≠ 0
      · simp [hc] at h
        exact ⟨f, by simp, hc, h.symm⟩
      · simp only [hc, if_false, ite_false, reduceIte] at h
        obtain ⟨g, hg, hgc, hge⟩ := ih e h
        exact ⟨g, by simp [hg], hgc, hge⟩

/-- Characterization of `commit_and_push` when the initial status probe
succeeds and reports a dirty tree: the pipeline is the staging step
followed by the cached-diff guard, the commit and the push, each later
step run only when the earlier ones allow. -/
lemma commit_and_push_dirty (env : GitEnv) (msg ts : String)
    (files : Option (List String))
    (h0 : env.status.code = 0) (h1 : pyStrip env.status.out ≠ "") :
    commit_and_push env msg files ts =
      (match (stageStep env files).1 with
       | some e =>
          (Except.ok { success := false, error := some e },
            GitCmd.statusCmd :: (stageStep env files).2)
       | none =>
          if env.diffCached.code = 0 then
            (Except.ok
              { success := true,
                message := some "No changes to commit after staging" },
              GitCmd.statusCmd :: (stageStep env files).2 ++ [GitCmd.diffCached])
          else if env.commit.code ≠ 0 then
            (Except.ok
              { success := false,
                error := some ("Commit failed: " ++ env.commit.err) },
              GitCmd.statusCmd :: (stageStep env files).2 ++
                [GitCmd.diffCached, GitCmd.commitCmd])
          else if env.push.code ≠ 0 then
            (Except.ok
              { success := false,
                error := some ("Push failed: " ++ env.push.err),
                committed := some true,
                commit_message :=
                  some (msg ++ "\n\nCommitted by Blog API at " ++ ts) },
              GitCmd.statusCmd :: (stageStep env files).2 ++
                [GitCmd.diffCached, GitCmd.commitCmd, GitCmd.pushCmd])
          else
            (Except.ok
              { success := true,
                message := some "Successfully committed and pushed",
                commit_message :=
                  some (msg ++ "\n\nCommitted by Blog API at " ++ ts),
                changes := some (pySplitNl (pyStrip env.status.out)) },
              GitCmd.statusCmd :: (stageStep env files).2 ++
                [GitCmd.diffCached, GitCmd.commitCmd, GitCmd.pushCmd])) := by
  have hgs := get_status_dirty env.status h0 h1
  rcases hst : stageStep env files with ⟨e, tr⟩
  simp only [commit_and_push, hgs, hst]
  cases e with
  | some v => simp
  | none =>
      by_cases h3 : env.diffCached.code = 0
      · simp [h3]
      · by_cases h4 : env.commit.code ≠ 0
        · simp [h3, h4]
        · by_cases h5 : env.push.code ≠ 0
          · simp [h3, h4, h5]
          · simp [h3, h4, h5]

/-! ## Concrete oracles used by the witnesses -/

/-- A git command that exits 0 with empty streams. -/
def okRun : RunResult := { code := 0, out := "", err := "" }

/-- A git command that exits 1 with empty streams. -/
def failRun : RunResult := { code := 1, out := "", err := "" }

/-- An oracle in which `git status --porcelain` reports one untracked
file and every other command succeeds; the cached diff is nonempty. -/
def dirtyEnv : GitEnv :=
  { status := { code := 0, out := "?? content/post/x.md\n", err := "" },
    add := fun _ => okRun, addDefault := okRun, diffCached := failRun,
    commit := okRun, push := okRun }

/-- An oracle with a clean working tree. -/
def cleanEnv : GitEnv :=
  { status := okRun, add := fun _ => okRun, addDefault := okRun,
    diffCached := okRun, commit := okRun, push := okRun }

/-- The spec's example scenario, taking the spec's own expected porcelain
line as the status output: `git status --porcelain` prints
`" A content/post/hello.md\n"`, staging the file succeeds and stages a
real delta, commit and push succeed. -/
def specScenarioEnv : GitEnv :=
  { status := { code := 0, out := " A content/post/hello.md\n", err := "" },
    add := fun _ => okRun, addDefault := okRun, diffCached := failRun,
    commit := okRun, push := okRun }

/-! ## Claim theorems: synchronizer and pipeline -/

/-- C2 (failing-input evaluation): with the local path present and
`git pull origin main` exiting 1, `ensure_repo` still returns `true`,
because `pull` returns `False` — never `None` — and
`self.pull() is not None` is therefore always true; the claim (and the
functions' own docstrings) say the pull branch must report the pull's
success. -/
theorem C2_ensure_repo_ignores_pull_failure :
    GitHandler.ensure_repo true 1 false = true ∧ GitHandler.pull 1 = some false := by
  constructor <;> rfl

/-- C10: when the status command succeeds, `get_status` returns a dict
whose `clean` is true exactly when `changes` is empty and whose
`change_count` equals the length of `changes`; when the status command
fails it returns only `error` and `clean = False`, with the `changes`
and `change_count` keys absent. -/
theorem C10_get_status_shape (st : RunResult) :
    (st.code = 0 →
      ∃ cs, (GitHandler.get_status st).error = none ∧
        (GitHandler.get_status st).changes = some cs ∧
        (GitHandler.get_status st).change_count = some cs.length ∧
        ((GitHandler.get_status st).clean = true ↔ cs = [])) ∧
    (st.code ≠ 0 →
      GitHandler.get_status st =
        { error := some st.err, clean := false, changes := none,
          change_count := none }) := by
  constructor
  · intro h
    by_cases hs : pyStrip st.out = ""
    · exact ⟨[], by simp [GitHandler.get_status, h, hs]⟩
    · refine ⟨pySplitNl (pyStrip st.out), ?_⟩
      simp [GitHandler.get_status, h, hs, List.isEmpty_iff]
  · intro h
    simp [GitHandler.get_status, h]

theorem C10_get_status_shape_witness :
    (∃ cs, (GitHandler.get_status { code := 0, out := " M a.md\n?? b.md\n", err := "" }).error = none ∧
      (GitHandler.get_status { code := 0, out := " M a.md\n?? b.md\n", err := "" }).changes = some cs ∧
      (GitHandler.get_status { code := 0, out := " M a.md\n?? b.md\n", err := "" }).change_count = some cs.length ∧
      ((GitHandler.get_status { code := 0, out := " M a.md\n?? b.md\n", err := "" }).clean = true ↔ cs = [])) ∧
    GitHandler.get_status { code := 1, out := "", err := "boom" } =
      { error := some "boom", clean := false, changes := none, change_count := none } :=
  ⟨(C10_get_status_shape { code := 0, out := " M a.md\n?? b.md\n", err := "" }).1 rfl,
   (C10_get_status_shape { code := 1, out := "", err := "boom" }).2 (by decide)⟩

/-- C5: on a clean working tree (successful status probe with blank
stripped porcelain output) `commit_and_push` returns
`{success: True, message: "No changes to commit"}` after the status
probe alone, and in particular never runs `git commit` — so a second
call right after a successful one, with no file changes in between,
creates no new commit. -/
theorem C5_clean_tree_noop (env : GitEnv) (msg ts : String)
    (files : Option (List String))
    (h0 : env.status.code = 0) (h1 : pyStrip env.status.out = "") :
    commit_and_push env msg files ts =
      (Except.ok { success := true, message := some "No changes to commit" },
        [GitCmd.statusCmd]) ∧
    GitCmd.commitCmd ∉ (commit_and_push env msg files ts).2 := by
  have hmain : commit_and_push env msg files ts =
      (Except.ok { success := true, message := some "No changes to commit" },
        [GitCmd.statusCmd]) := by
    simp [commit_and_push, GitHandler.get_status, h0, h1]
  refine ⟨hmain, ?_⟩
  rw [hmain]
  simp

theorem C5_clean_tree_noop_witness :
    commit_and_push cleanEnv "Add post: hello" none "TS" =
      (Except.ok { success := true, message := some "No changes to commit" },
        [GitCmd.statusCmd]) ∧
    GitCmd.commitCmd ∉ (commit_and_push cleanEnv "Add post: hello" none "TS").2 :=
  C5_clean_tree_noop cleanEnv "Add post: hello" "TS" none rfl rfl

/-- Every command issued by the per-file staging loop is a `git add` of
some path. -/
lemma stageFiles_cmds (env : GitEnv) :
    ∀ (fs : List String) (c : GitCmd), c ∈ (stageFiles env fs).2 →
      ∃ f, c = GitCmd.addFile f := by
  intro fs
  induction fs with
  | nil => intro c h; simp [stageFiles] at h
  | cons f rest ih =>
      intro c h
      rw [stageFiles] at h
      by_cases hc : (env.add f).code ≠ 0
      · simp [hc] at h
        exact ⟨f, h⟩
      · simp only [hc, reduceIte] at h
        rcases List.mem_cons.mp h with h | h
        · exact ⟨f, h⟩
        · exact ih c h

/-- Every command issued by the staging step is a `git add`. -/
lemma stageStep_cmds (env : GitEnv) (files : Option (List String)) (c : GitCmd)
    (h : c ∈ (stageStep env files).2) :
    (∃ f, c = GitCmd.addFile f) ∨ c = GitCmd.addDefault := by
  cases files with
  | none =>
      simp only [stageStep] at h
      simp at h
      right
      exact h
  | some fs =>
      cases fs with
      | nil =>
          simp only [stageStep] at h
          simp at h
          right
          exact h
      | cons f rest =>
          simp only [stageStep] at h
          left
          exact stageFiles_cmds env (f :: rest) c h

/-- C6: when the tree is dirty but the staging step stages no actual
content delta (`git diff --cached --quiet` exits 0), the pipeline
returns success with the no-op message and never runs the commit or
push steps, so no empty commit is created. -/
theorem C6_no_empty_commit (env : GitEnv) (msg ts : String)
    (files : Option (List String))
    (h0 : env.status.code = 0) (h1 : pyStrip env.status.out ≠ "")
    (h2 : (stageStep env files).1 = none) (h3 : env.diffCached.code = 0) :
    (commit_and_push env msg files ts).1 =
      Except.ok
        { success := true,
          message := some "No changes to commit after staging" } ∧
    GitCmd.commitCmd ∉ (commit_and_push env msg files ts).2 ∧
    GitCmd.pushCmd ∉ (commit_and_push env msg files ts).2 := by
  rw [commit_and_push_dirty env msg ts files h0 h1, h2]
  simp only [if_pos h3]
  refine ⟨trivial, ?_, ?_⟩ <;>
    · intro hmem
      simp only [List.cons_append, List.mem_cons, List.mem_append,
        List.mem_singleton, List.not_mem_nil, or_false] at hmem
      rcases hmem with h | h | h
      · exact GitCmd.noConfusion h
      · rcases stageStep_cmds env files _ h with ⟨f, hf⟩ | hf <;>
          exact GitCmd.noConfusion hf
      · exact GitCmd.noConfusion h

theorem C6_no_empty_commit_witness :
    (commit_and_push
        { status := { code := 0, out := "?? content/post/x.md\n", err := "" },
          add := fun _ => okRun, addDefault := okRun, diffCached := okRun,
          commit := okRun, push := okRun }
        "Add post: x" none "TS").1 =
      Except.ok
        { success := true,
          message := some "No changes to commit after staging" } ∧
    GitCmd.commitCmd ∉
      (commit_and_push
        { status := { code := 0, out := "?? content/post/x.md\n", err := "" },
          add := fun _ => okRun, addDefault := okRun, diffCached := okRun,
          commit := okRun, push := okRun }
        "Add post: x" none "TS").2 ∧
    GitCmd.pushCmd ∉
      (commit_and_push
        { status := { code := 0, out := "?? content/post/x.md\n", err := "" },
          add := fun _ => okRun, addDefault := okRun, diffCached := okRun,
          commit := okRun, push := okRun }
        "Add post: x" none "TS").2 :=
  C6_no_empty_commit
    { status := { code := 0, out := "?? content/post/x.md\n", err := "" },
      add := fun _ => okRun, addDefault := okRun, diffCached := okRun,
      commit := okRun, push := okRun }
    "Add post: x" "TS" none rfl (by decide) rfl rfl

/-- An oracle for the partial-success scenario: dirty tree, staging and
commit succeed, the push is rejected at the remote. -/
def pushRejectEnv : GitEnv :=
  { status := { code := 0, out := "?? content/post/x.md\n", err := "" },
    add := fun _ => okRun, addDefault := okRun, diffCached := failRun,
    commit := okRun, push := { code := 1, out := "", err := "rejected" } }

/-- C3: whenever the commit step succeeds and the subsequent push fails,
`commit_and_push` returns `success = False`, `committed = True` and a
non-empty error message, and the trace ends at the push — there is no
rollback command after the commit, so the local commit stays in place. -/
theorem C3_push_failure_reported (env : GitEnv) (msg ts : String)
    (files : Option (List String))
    (h0 : env.status.code = 0) (h1 : pyStrip env.status.out ≠ "")
    (h2 : (stageStep env files).1 = none) (h3 : env.diffCached.code ≠ 0)
    (h4 : env.commit.code = 0) (h5 : env.push.code ≠ 0) :
    (commit_and_push env msg files ts).1 =
      Except.ok
        { success := false,
          error := some ("Push failed: " ++ env.push.err),
          committed := some true,
          commit_message :=
            some (msg ++ "\n\nCommitted by Blog API at " ++ ts) } ∧
    ("Push failed: " ++ env.push.err) ≠ "" ∧
    (commit_and_push env msg files ts).2 =
      GitCmd.statusCmd :: (stageStep env files).2 ++
        [GitCmd.diffCached, GitCmd.commitCmd, GitCmd.pushCmd] ∧
    GitCmd.commitCmd ∈ (commit_and_push env msg files ts).2 := by
  have h4' : ¬ env.commit.code ≠ 0 := by simp [h4]
  rw [commit_and_push_dirty env msg ts files h0 h1, h2]
  simp only [if_neg h3, if_neg h4', if_pos h5]
  refine ⟨trivial, ?_, trivial, ?_⟩
  · intro hc
    have hlen := congrArg String.length hc
    simp [String.length_append] at hlen
    exact absurd hlen.1 (by decide)
  · simp

theorem C3_push_failure_reported_witness :
    (commit_and_push pushRejectEnv "Add post: x" (some ["content/post/x.md"]) "TS").1 =
      Except.ok
        { success := false,
          error := some ("Push failed: " ++ pushRejectEnv.push.err),
          committed := some true,
          commit_message :=
            some ("Add post: x" ++ "\n\nCommitted by Blog API at " ++ "TS") } ∧
    ("Push failed: " ++ pushRejectEnv.push.err) ≠ "" ∧
    (commit_and_push pushRejectEnv "Add post: x" (some ["content/post/x.md"]) "TS").2 =
      GitCmd.statusCmd ::
        (stageStep pushRejectEnv (some ["content/post/x.md"])).2 ++
        [GitCmd.diffCached, GitCmd.commitCmd, GitCmd.pushCmd] ∧
    GitCmd.commitCmd ∈
      (commit_and_push pushRejectEnv "Add post: x" (some ["content/post/x.md"]) "TS").2 :=
  C3_push_failure_reported pushRejectEnv "Add post: x" "TS"
    (some ["content/post/x.md"]) rfl (by decide) rfl (by decide) rfl (by decide)

/-- C4 (counterexample): even granting the spec's own porcelain line
`" A content/post/hello.md"` as the status output of the example
scenario, `commit_and_push` does not return
`changes = [" A content/post/hello.md"]`: `get_status` strips the whole
stdout before splitting, so the first line loses its leading space. -/
theorem C4_changes_lose_leading_space :
    ((commit_and_push specScenarioEnv "Add post: hello"
        (some ["content/post/hello.md"]) "TS").1.toOption.map
      CommitPushResult.changes) ≠ some (some [" A content/post/hello.md"]) := by
  decide

/-- C4 (amended): in the example scenario — status reports the single
porcelain line for the new file, staging it stages a real delta, commit
and push succeed — `commitAndPush("Add post: hello",
["content/post/hello.md"])` returns success with message
"Successfully committed and pushed" and
`changes = ["A content/post/hello.md"]`: the porcelain line with the
outer whitespace of the raw stdout stripped. -/
theorem C4_example_scenario (ts : String) :
    (commit_and_push specScenarioEnv "Add post: hello"
        (some ["content/post/hello.md"]) ts).1 =
      Except.ok
        { success := true,
          message := some "Successfully committed and pushed",
          commit_message :=
            some ("Add post: hello\n\nCommitted by Blog API at " ++ ts),
          changes := some ["A content/post/hello.md"] } := by
  rfl

/-- C7 (counterexample): with a dirty tree and an explicitly supplied
`files = []`, the pipeline stages the default set `content/ static/`
(Python's `if files:` treats the empty list like `None`), not "exactly
the caller-supplied paths" (which would stage nothing). -/
theorem C7_empty_list_stages_default :
    GitCmd.addDefault ∈ (commit_and_push dirtyEnv "m" (some []) "TS").2 := by
  decide

/-- C7 (amended): the pipeline stages exactly the caller-supplied paths
when a non-empty files list is given and the default set
`content/ static/` when none — or an empty list — is given; the trace is
the status probe, then exactly the staging commands, then only
diff/commit/push; and a staging failure aborts before the commit with
`success = False` and an error carrying the raw stderr of the failed
`git add`. -/
theorem C7_staging_exactness (env : GitEnv) (msg ts : String)
    (files : Option (List String))
    (h0 : env.status.code = 0) (h1 : pyStrip env.status.out ≠ "") :
    ((files = none ∨ files = some []) →
      (stageStep env files).2 = [GitCmd.addDefault]) ∧
    (∀ f fs, files = some (f :: fs) → (stageStep env files).1 = none →
      (stageStep env files).2 = (f :: fs).map GitCmd.addFile) ∧
    (∃ rest, (commit_and_push env msg files ts).2 =
        GitCmd.statusCmd :: (stageStep env files).2 ++ rest ∧
        ∀ c ∈ rest, c = GitCmd.diffCached ∨ c = GitCmd.commitCmd ∨
          c = GitCmd.pushCmd) ∧
    (∀ e, (stageStep env files).1 = some e →
      (commit_and_push env msg files ts).1 =
        Except.ok { success := false, error := some e } ∧
      GitCmd.commitCmd ∉ (commit_and_push env msg files ts).2 ∧
      GitCmd.pushCmd ∉ (commit_and_push env msg files ts).2 ∧
      ((∃ f, (env.add f).code ≠ 0 ∧
          e = "Failed to add " ++ f ++ ": " ++ (env.add f).err) ∨
        (env.addDefault.code ≠ 0 ∧
          e = "Failed to add files: " ++ env.addDefault.err))) := by
  refine ⟨?_, ?_, ?_, ?_⟩
  · rintro (hf | hf) <;> subst hf <;> simp [stageStep]
  · intro f fs hf hnone
    subst hf
    simp only [stageStep] at hnone ⊢
    exact stageFiles_ok env (f :: fs) hnone
  · rw [commit_and_push_dirty env msg ts files h0 h1]
    cases hst : (stageStep env files).1 with
    | some e =>
        refine ⟨[], by simp, ?_⟩
        intro c hc
        simp at hc
    | none =>
        by_cases h3 : env.diffCached.code = 0
        · refine ⟨[GitCmd.diffCached], by simp [h3], ?_⟩
          intro c hc
          simp at hc
          simp [hc]
        · by_cases h4 : env.commit.code ≠ 0
          · refine ⟨[GitCmd.diffCached, GitCmd.commitCmd], by simp [h3, h4], ?_⟩
            intro c hc
            simp at hc
            rcases hc with hc | hc <;> simp [hc]
          · by_cases h5 : env.push.code ≠ 0
            · refine ⟨[GitCmd.diffCached, GitCmd.commitCmd, GitCmd.pushCmd],
                by simp [h3, h4, h5], ?_⟩
              intro c hc
              simp at hc
              rcases hc with hc | hc | hc <;> simp [hc]
            · refine ⟨[GitCmd.diffCached, GitCmd.commitCmd, GitCmd.pushCmd],
                by simp [h3, h4, h5], ?_⟩
              intro c hc
              simp at hc
              rcases hc with hc | hc | hc <;> simp [hc]
  · intro e he
    rw [commit_and_push_dirty env msg ts files h0 h1, he]
    refine ⟨rfl, ?_, ?_, ?_⟩
    · intro hmem
      simp only [List.mem_cons] at hmem
      rcases hmem with h | h
      · exact GitCmd.noConfusion h
      · rcases stageStep_cmds env files _ h with ⟨f, hf⟩ | hf <;>
          exact GitCmd.noConfusion hf
    · intro hmem
      simp only [List.mem_cons] at hmem
      rcases hmem with h | h
      · exact GitCmd.noConfusion h
      · rcases stageStep_cmds env files _ h with ⟨f, hf⟩ | hf <;>
          exact GitCmd.noConfusion hf
    · cases files with
      | none =>
          simp only [stageStep] at he
          by_cases hd : env.addDefault.code ≠ 0
          · right
            refine ⟨hd, ?_⟩
            simp [hd] at he
            exact he.symm
          · simp [hd] at he
      | some fs =>
          cases fs with
          | nil =>
              simp only [stageStep] at he
              by_cases hd : env.addDefault.code ≠ 0
              · right
                refine ⟨hd, ?_⟩
                simp [hd] at he
                exact he.symm
              · simp [hd] at he
          | cons f rest =>
              simp only [stageStep] at he
              obtain ⟨g, _, hgc, hge⟩ := stageFiles_err env (f :: rest) e he
              exact Or.inl ⟨g, hgc, hge⟩

theorem C7_staging_exactness_witness :
    ((some ["content/post/x.md"] = none ∨
        (some ["content/post/x.md"] : Option (List String)) = some []) →
      (stageStep dirtyEnv (some ["content/post/x.md"])).2 = [GitCmd.addDefault]) ∧
    (∀ f fs, (some ["content/post/x.md"] : Option (List String)) = some (f :: fs) →
      (stageStep dirtyEnv (some ["content/post/x.md"])).1 = none →
      (stageStep dirtyEnv (some ["content/post/x.md"])).2 =
        (f :: fs).map GitCmd.addFile) ∧
    (∃ rest, (commit_and_push dirtyEnv "m" (some ["content/post/x.md"]) "TS").2 =
        GitCmd.statusCmd ::
          (stageStep dirtyEnv (some ["content/post/x.md"])).2 ++ rest ∧
        ∀ c ∈ rest, c = GitCmd.diffCached ∨ c = GitCmd.commitCmd ∨
          c = GitCmd.pushCmd) ∧
    (∀ e, (stageStep dirtyEnv (some ["content/post/x.md"])).1 = some e →
      (commit_and_push dirtyEnv "m" (some ["content/post/x.md"]) "TS").1 =
        Except.ok { success := false, error := some e } ∧
      GitCmd.commitCmd ∉
        (commit_and_push dirtyEnv "m" (some ["content/post/x.md"]) "TS").2 ∧
      GitCmd.pushCmd ∉
        (commit_and_push dirtyEnv "m" (some ["content/post/x.md"]) "TS").2 ∧
      ((∃ f, (dirtyEnv.add f).code ≠ 0 ∧
          e = "Failed to add " ++ f ++ ": " ++ (dirtyEnv.add f).err) ∨
        (dirtyEnv.addDefault.code ≠ 0 ∧
          e = "Failed to add files: " ++ dirtyEnv.addDefault.err))) :=
  C7_staging_exactness dirtyEnv "m" "TS" (some ["content/post/x.md"]) rfl (by decide)

end BlogApi

